import Mathlib

/-
Verification development for the treeline-subscriptions plugin.

The detection engine lives in `SubscriptionsView.svelte` (the current version,
with merchant_key, the manual-tag path and the merge step).  It consists of a
DuckDB SQL query (`SUBSCRIPTION_SQL` plus the inline tagged-transaction query)
and the JavaScript row-mapping / merge code of `detectSubscriptions`.  Both are
embedded below as pure functions over lists of transactions:

  * calendar dates are day numbers (ℤ); `CURRENT_DATE` becomes the parameter
    `today` and `DATE_TRUNC('year', CURRENT_DATE)` the parameter `yearStart`;
  * currency amounts are exact rationals (ℚ);
  * `jaro_winkler_similarity` is a DuckDB builtin, not code of this repository,
    so it is a parameter `sim : String → String → ℚ` of the pipeline;
  * JavaScript `Math.round` is `⌊x + 1/2⌋` (half toward +∞), SQL `ROUND` is
    half away from zero; both are modelled separately;
  * the mutable component state (`subscriptions`, `hiddenMerchantKeys`,
    `subscriptionTag`) becomes an explicit `EngineState`, and the possibility
    that an `sdk.query` call throws becomes the booleans `autoOk` / `manualOk`
    of `detectStep` (the `try`/`catch` around `detectSubscriptions` assigns
    `subscriptions` only once, after every query and the merge succeeded).
-/

set_option maxRecDepth 8000

namespace Treeline

/-- A row of the `transactions` table: `transaction_date` as a day number,
signed `amount`, `description`, `tags`.  (`description IS NOT NULL` is modelled
by `String` being total; the empty string plays the role of NULL/empty.) -/
structure Txn where
  date : ℤ
  amount : ℚ
  desc : String
  tags : List String
deriving DecidableEq

/-- The `Subscription` record produced by `detectSubscriptions` (dates as day
numbers instead of strings). -/
structure Subscription where
  merchant : String
  merchant_key : String
  amount : ℚ
  frequency : String
  interval_days : ℤ
  occurrence_count : ℤ
  annual_cost : ℚ
  ytd_cost : ℚ
  last_charge : ℤ
  first_charge : ℤ
  days_since_last : ℤ
  is_stale : Bool
  is_manual : Bool
deriving DecidableEq

/-- A result row of either detection query, in the column order consumed by the
JavaScript mapping code.  The `stddev_interval` column of `SUBSCRIPTION_SQL` is
never read by the mapping (row[5] is skipped), so it is not carried here; the
HAVING clause that uses it is evaluated inside `autoStatRow`. -/
structure StatRow where
  merchant : String
  merchant_key : String
  avg_amount : ℚ
  occurrence_count : ℤ
  avg_interval : ℚ
  last_charge : ℤ
  first_charge : ℤ
  ytd_cost : ℚ
  days_since_last : ℤ
deriving DecidableEq

/-- JavaScript `Math.round`: round half toward +∞. -/
def jsRound (q : ℚ) : ℤ := ⌊q + 1/2⌋

/-- JavaScript `Math.round(x * 100) / 100`, used for all cent rounding in the
row mappings. -/
def jsRound2 (q : ℚ) : ℚ := (jsRound (q * 100) : ℚ) / 100

/-- SQL `ROUND` to an integer: round half away from zero (DuckDB semantics). -/
def roundHalfAway (q : ℚ) : ℤ := if q < 0 then -⌊-q + 1/2⌋ else ⌊q + 1/2⌋

/-- SQL `ROUND(amount, 2)` of `base_transactions`. -/
def sqlRound2 (q : ℚ) : ℚ := (roundHalfAway (q * 100) : ℚ) / 100

/-- `UPPER(description)`: the merchant normalizer. -/
def upperDesc (t : Txn) : String := t.desc.toUpper

/-- `norm_amount`: the charge amount rounded to cents. -/
def normAmount (t : Txn) : ℚ := sqlRound2 t.amount

/-- Two-digit rendering of a fraction-of-a-unit, for `toFixed(2)`. -/
def pad2 (n : ℕ) : String := if n < 10 then "0" ++ toString n else toString n

/-- JavaScript `Number.prototype.toFixed(2)`.  The amounts it is applied to are
nonnegative values already rounded to the cent grid, where it only formats. -/
def toFixed2 (q : ℚ) : String :=
  let c : ℤ := jsRound (q * 100)
  let n := c.natAbs
  let core := toString (n / 100) ++ "." ++ pad2 (n % 100)
  if c < 0 then "-" ++ core else core

/-- JavaScript `str.split(' ')[0]`: the part of the string before its first
space character (the whole string when it has no space). -/
def firstSpaceToken (s : String) : String := (s.splitOn " ").headD ""

/-- Consecutive day gaps of a chronologically sorted date list: the
`DATEDIFF('day', prev_date, transaction_date)` column over the `LAG` window. -/
def gapsOf : List ℤ → List ℤ
  | a :: b :: rest => (b - a) :: gapsOf (b :: rest)
  | _ => []

/-- SQL `AVG` over an integer column (0 on the empty list, which never reaches
a comparison: SQL groups are nonempty). -/
def avgQ (xs : List ℤ) : ℚ := (xs.sum : ℚ) / (xs.length : ℚ)

/-- Sample variance, the square of DuckDB `STDDEV` (which is `STDDEV_SAMP`). -/
def sampleVarQ (xs : List ℤ) : ℚ :=
  (xs.map fun x => ((x : ℚ) - avgQ xs) ^ 2).sum / ((xs.length : ℚ) - 1)

/-- The consistency tolerance of the HAVING clause, `0.5` in
`SUBSCRIPTION_SQL` (`STDDEV(...) < AVG(...) * 0.5`). -/
def intervalConsistencyTolerance : ℚ := 1/2

/-- The HAVING clause of `merchant_stats`: `COUNT(*) >= 2` on interval rows,
`AVG(interval_days) BETWEEN 5 AND 400`, and
`STDDEV(interval_days) < AVG(interval_days) * 0.5`.  The stddev comparison is
stated on squares (`variance < (avg * tolerance)^2`), which is equivalent to
the SQL form because both sides of the SQL comparison are nonnegative whenever
the range conjunct holds; the equivalence with the square-root form is proved
in the theorem for claim C2. -/
def passesPeriodicityFilter (gaps : List ℤ) : Bool :=
  decide (2 ≤ gaps.length) && decide ((5 : ℚ) ≤ avgQ gaps) &&
    decide (avgQ gaps ≤ 400) &&
    decide (sampleVarQ gaps < (avgQ gaps * intervalConsistencyTolerance) ^ 2)

/-- Insert into a sorted list: `le u t` means the new element `t` belongs after
`u`.  Stable (equal keys keep their relative order). -/
def insertOrd (le : α → α → Bool) (t : α) : List α → List α
  | [] => [t]
  | u :: rest => if le u t then u :: insertOrd le t rest else t :: u :: rest

/-- Stable insertion sort, modelling the deterministic order of SQL windows
(`ORDER BY transaction_date`) and of `ORDER BY ... DESC`. -/
def sortOrd (le : α → α → Bool) : List α → List α
  | [] => []
  | t :: rest => insertOrd le t (sortOrd le rest)

/-- A merchant group's timeline ordered by `transaction_date` (stable). -/
def sortByDate (l : List Txn) : List Txn :=
  sortOrd (fun u t => decide (u.date ≤ t.date)) l

/-- `ORDER BY key DESC`, stable. -/
def sortRowsDescBy (key : StatRow → ℚ) (l : List StatRow) : List StatRow :=
  sortOrd (fun u t => decide (key t ≤ key u)) l

/-- Distinct values in order of first occurrence (the set of grouping keys). -/
def firstDedup [DecidableEq α] (l : List α) : List α :=
  l.foldl (fun acc a => if a ∈ acc then acc else acc ++ [a]) []

/-- The chronologically earliest transaction of a list, earlier list position
winning ties: the row kept by `DISTINCT ON (norm_amount) ... ORDER BY
norm_amount, transaction_date ASC`. -/
def earliestTxn : List Txn → Option Txn
  | [] => none
  | t :: rest =>
    match earliestTxn rest with
    | none => some t
    | some u => if u.date < t.date then some u else some t

/-- `base_transactions`: debit rows with a non-empty description. -/
def baseTransactions (txns : List Txn) : List Txn :=
  txns.filter fun t => decide (t.amount < 0) && decide (t.desc ≠ "")

/-- `canonical_merchants`: for a rounded amount, the uppercased description of
its earliest base transaction. -/
def canonicalDescAt (bts : List Txn) (a : ℚ) : Option String :=
  (earliestTxn (bts.filter fun t => decide (normAmount t = a))).map upperDesc

/-- `merchant_group` of `grouped_transactions`: the canonical description when
`jaro_winkler_similarity(upper_desc, canonical_desc) > 0.7`, otherwise the
transaction's own uppercased description.  The `none` branch mirrors the LEFT
JOIN producing NULL (the similarity comparison is then not satisfied). -/
def merchantGroupOf (sim : String → String → ℚ) (bts : List Txn) (t : Txn) :
    String :=
  match canonicalDescAt bts (normAmount t) with
  | none => upperDesc t
  | some c => if 7/10 < sim (upperDesc t) c then c else upperDesc t

/-- `AVG(ABS(amount))` over a list of rows. -/
def avgAbsAmount (rows : List Txn) : ℚ :=
  ((rows.map fun t => |t.amount|).sum) / (rows.length : ℚ)

/-- One row of `merchant_stats` for the grouping key `(merchant_group,
norm_amount)`: `none` when the group yields no interval rows (fewer than two
members) or fails the HAVING clause.  The interval rows are the sorted members
minus the first one (`WHERE prev_date IS NOT NULL`), so the aggregates
`FIRST(merchant)`, `AVG(ABS(amount))`, `MIN(transaction_date)` range over
members 2..n, while `ytd_spending` sums over all members. -/
def autoStatRow (sim : String → String → ℚ) (today yearStart : ℤ)
    (bts : List Txn) (key : String × ℚ) : Option StatRow :=
  let members := sortByDate (bts.filter fun t =>
    decide (merchantGroupOf sim bts t = key.1) && decide (normAmount t = key.2))
  match members with
  | m0 :: m1 :: rest =>
    let gaps := gapsOf ((m0 :: m1 :: rest).map Txn.date)
    if passesPeriodicityFilter gaps then
      some
        { merchant := m1.desc
          merchant_key := key.1
          avg_amount := avgAbsAmount (m1 :: rest)
          occurrence_count := (gaps.length : ℤ) + 1
          avg_interval := avgQ gaps
          last_charge := ((m1 :: rest).getLastD m1).date
          first_charge := m1.date
          ytd_cost := (((m0 :: m1 :: rest).filter fun t =>
            decide (yearStart ≤ t.date)).map fun t => |t.amount|).sum
          days_since_last := today - ((m1 :: rest).getLastD m1).date }
    else none
  | _ => none

/-- The frequency bucket chain of the row mappings.  The mapping code
initializes `frequency = "unknown"` and then always overwrites it: the final
`else` branch assigns `"annual"`, so `"unknown"` is unreachable. -/
def classifyFrequency (d : ℤ) : String :=
  if d ≤ 8 then "weekly"
  else if d ≤ 16 then "bi-weekly"
  else if d ≤ 35 then "monthly"
  else if d ≤ 100 then "quarterly"
  else if d ≤ 200 then "semi-annual"
  else "annual"

/-- `staleThreshold = Math.max(intervalDays * 2, 90)`. -/
def staleThresholdOf (d : ℤ) : ℤ := max (d * 2) 90

/-- The JavaScript mapping of one auto-detected row to a `Subscription`
(`rows.map` in `detectSubscriptions`).  `merchant_key` falls back to the
uppercased merchant when the group column is empty (`row[1] || ...`). -/
def mapAutoRow (r : StatRow) : Subscription :=
  let intervalDays := jsRound r.avg_interval
  { merchant := r.merchant
    merchant_key := if r.merchant_key = "" then r.merchant.toUpper
      else r.merchant_key
    amount := jsRound2 r.avg_amount
    frequency := classifyFrequency intervalDays
    interval_days := intervalDays
    occurrence_count := r.occurrence_count
    annual_cost := jsRound2 (r.avg_amount * (365 / (intervalDays : ℚ)))
    ytd_cost := jsRound2 r.ytd_cost
    last_charge := r.last_charge
    first_charge := r.first_charge
    days_since_last := r.days_since_last
    is_stale := decide (staleThresholdOf intervalDays < r.days_since_last)
    is_manual := false }

/-- The auto-detection pipeline `SUBSCRIPTION_SQL` followed by the row mapping:
group base transactions by `(merchant_group, norm_amount)`, keep groups passing
the HAVING clause, `ORDER BY avg_amount * (365.0 / avg_interval) DESC`, then
map rows to subscriptions. -/
def autoDetect (sim : String → String → ℚ) (today yearStart : ℤ)
    (txns : List Txn) : List Subscription :=
  let bts := baseTransactions txns
  let keys := firstDedup (bts.map fun t =>
    (merchantGroupOf sim bts t, normAmount t))
  let rows := keys.filterMap (autoStatRow sim today yearStart bts)
  (sortRowsDescBy (fun r => r.avg_amount * (365 / r.avg_interval)) rows).map
    mapAutoRow

/-- The tagged-transaction selection of the manual query: debit rows whose tag
list contains the configured tag (`list_contains(tags, tag)`). -/
def taggedTransactions (tagToUse : String) (txns : List Txn) : List Txn :=
  txns.filter fun t => decide (t.amount < 0) && t.tags.contains tagToUse

/-- One row of the manual query's `grouped` CTE for a `merchant_key`
(`UPPER(description)`): `none` when the group has fewer than two transactions
(no interval rows survive `WHERE prev_date IS NOT NULL`).  There is no HAVING
clause.  `COALESCE(avg_interval, 30)` never fires (the aggregate over a
nonempty group is non-NULL), so `avg_interval` is kept as computed; the
JavaScript `row[4] || 30` rescue is applied in `mapManualRow`. -/
def manualGroupRow (today yearStart : ℤ) (tagged : List Txn) (key : String) :
    Option StatRow :=
  let members := sortByDate (tagged.filter fun t => decide (upperDesc t = key))
  match members with
  | m0 :: m1 :: rest =>
    let gaps := gapsOf ((m0 :: m1 :: rest).map Txn.date)
    some
      { merchant := m1.desc
        merchant_key := key
        avg_amount := avgAbsAmount (m1 :: rest)
        occurrence_count := (gaps.length : ℤ) + 1
        avg_interval := avgQ gaps
        last_charge := ((m1 :: rest).getLastD m1).date
        first_charge := m1.date
        ytd_cost := ((tagged.filter fun t =>
          decide (upperDesc t = key) && decide (yearStart ≤ t.date)).map
          fun t => |t.amount|).sum
        days_since_last := today - ((m1 :: rest).getLastD m1).date }
  | _ => none

/-- The JavaScript mapping of one manual row (`taggedRows.map`): identical to
`mapAutoRow` except for `const avg_interval = row[4] as number || 30` — a zero
average interval is falsy and becomes 30 — and `is_manual: true`. -/
def mapManualRow (r : StatRow) : Subscription :=
  let avgInterval := if r.avg_interval = 0 then 30 else r.avg_interval
  let intervalDays := jsRound avgInterval
  { merchant := r.merchant
    merchant_key := if r.merchant_key = "" then r.merchant.toUpper
      else r.merchant_key
    amount := jsRound2 r.avg_amount
    frequency := classifyFrequency intervalDays
    interval_days := intervalDays
    occurrence_count := r.occurrence_count
    annual_cost := jsRound2 (r.avg_amount * (365 / (intervalDays : ℚ)))
    ytd_cost := jsRound2 r.ytd_cost
    last_charge := r.last_charge
    first_charge := r.first_charge
    days_since_last := r.days_since_last
    is_stale := decide (r.days_since_last > staleThresholdOf intervalDays)
    is_manual := true }

/-- The manual-tag path: nothing when the trimmed tag is empty, otherwise the
tagged-transaction query (`GROUP BY UPPER(description)`, `ORDER BY avg_amount
DESC`) followed by the manual row mapping. -/
def manualPath (today yearStart : ℤ) (txns : List Txn) (tag : String) :
    List Subscription :=
  let tagToUse := tag.trim
  if tagToUse = "" then []
  else
    let tagged := taggedTransactions tagToUse txns
    let keys := firstDedup (tagged.map upperDesc)
    let rows := keys.filterMap (manualGroupRow today yearStart tagged)
    (sortRowsDescBy (fun r => r.avg_amount) rows).map mapManualRow

/-- The fallback merge fingerprint:
`amount.toFixed(2) + "|" + merchant.toUpperCase().split(' ')[0]`. -/
def fingerprintOf (s : Subscription) : String :=
  toFixed2 s.amount ++ "|" ++ firstSpaceToken s.merchant.toUpper

/-- The merge step of `detectSubscriptions`: mark auto-detected subscriptions
also present in the manual list (`manualKeys.has(...) ||
manualAmountFirstWord.has(...)`), and append only the manual subscriptions not
matching any auto-detected one by merchant key or fingerprint. -/
def reconcile (auto manual : List Subscription) : List Subscription :=
  let markedAuto := auto.map fun s =>
    { s with is_manual :=
        manual.any (fun m => decide (m.merchant_key = s.merchant_key)) ||
          manual.any (fun m => decide (fingerprintOf m = fingerprintOf s)) }
  let uniqueManual := manual.filter fun m =>
    !(auto.any fun d => decide (d.merchant_key = m.merchant_key)) &&
      !(auto.any fun d => decide (fingerprintOf d = fingerprintOf m))
  markedAuto ++ uniqueManual

/-- A full successful detection run: auto path, manual path, merge. -/
def runDetection (sim : String → String → ℚ) (today yearStart : ℤ)
    (txns : List Txn) (tag : String) : List Subscription :=
  reconcile (autoDetect sim today yearStart txns)
    (manualPath today yearStart txns tag)

/-- The mutable component state read and written by `detectSubscriptions`. -/
structure EngineState where
  subscriptions : List Subscription
  hiddenMerchantKeys : List String
  subscriptionTag : String
deriving DecidableEq

/-- One call of `detectSubscriptions` with the possibility of query failure:
`autoOk` / `manualOk` say whether the two `sdk.query` calls succeed.  A thrown
query lands in the `catch` block before the single `subscriptions = ...`
assignment, so the previous list is retained; the manual query only runs (and
so can only fail) when the trimmed tag is non-empty. -/
def detectStep (sim : String → String → ℚ) (today yearStart : ℤ)
    (txns : List Txn) (autoOk manualOk : Bool) (st : EngineState) :
    EngineState :=
  if autoOk = false then st
  else if st.subscriptionTag.trim ≠ "" ∧ manualOk = false then st
  else
    { st with subscriptions :=
        runDetection sim today yearStart txns st.subscriptionTag }

/-- `hideSubscription`: the merchant key is added to the hidden set (the
persisted upsert plus the in-memory `new Set([...hidden, key])`).  A list
models the set; only `contains` is ever observed. -/
def hideKey (hidden : List String) (k : String) : List String := k :: hidden

/-- `unhideSubscription`: the merchant key is removed from the hidden set. -/
def unhideKey (hidden : List String) (k : String) : List String :=
  hidden.filter fun x => decide (x ≠ k)

/-- `hideSubscription` acting on the component state. -/
def hideState (st : EngineState) (k : String) : EngineState :=
  { st with hiddenMerchantKeys := hideKey st.hiddenMerchantKeys k }

/-- JavaScript `s.includes(pat)` for a non-empty pattern. -/
def strContainsSub (s pat : String) : Bool := decide (1 < (s.splitOn pat).length)

/-- The `visibleSubscriptions` derived value: drop hidden entries unless
`showHidden`, then apply the case-insensitive search filter. -/
def visibleSubscriptions (subs : List Subscription) (hidden : List String)
    (showHidden : Bool) (searchQuery : String) : List Subscription :=
  subs.filter fun s =>
    let isHidden := hidden.contains s.merchant_key
    if !showHidden && isHidden then false
    else if searchQuery ≠ "" then
      strContainsSub s.merchant.toLower searchQuery.toLower
    else true

/-! Concrete inputs used by witnesses and counterexamples. -/

/-- A concrete similarity function for witnesses: 1 on equal strings, 4/5 when
the first space-delimited tokens agree, 0 otherwise.  (The similarity function
is a DuckDB builtin and therefore a parameter of the pipeline.) -/
def simW : String → String → ℚ := fun a b =>
  if a = b then 1 else if firstSpaceToken a = firstSpaceToken b then 4/5 else 0

/-- A discrete similarity function: 1 on equal strings, 0 otherwise. -/
def simZero : String → String → ℚ := fun a b => if a = b then 1 else 0

/-- Three Netflix charges at -15.99 on days 0/30/60 under two description
variants, plus a dissimilar Spotify charge at the same amount (§8 clustering
example). -/
def txnsNetflix : List Txn :=
  [ { date := 0, amount := -1599/100, desc := "NETFLIX.COM LOS GATOS CA",
      tags := [] },
    { date := 30, amount := -1599/100, desc := "NETFLIX.COM NETFLIX.COM CA",
      tags := [] },
    { date := 60, amount := -1599/100, desc := "NETFLIX.COM LOS GATOS CA",
      tags := [] },
    { date := 45, amount := -1599/100, desc := "SPOTIFY USA", tags := [] } ]

/-- Two tagged charges seven days apart: a manual group with exactly one gap. -/
def txnsGym : List Txn :=
  [ { date := 0, amount := -10, desc := "GYM", tags := ["subscriptions"] },
    { date := 7, amount := -10, desc := "GYM", tags := ["subscriptions"] } ]

/-- Four tagged charges on days 0, 0, 0, 1: the mean gap is 1/3, which the
manual path rounds to an interval of 0 days. -/
def txnsApp : List Txn :=
  [ { date := 0, amount := -5, desc := "APP", tags := ["s"] },
    { date := 0, amount := -5, desc := "APP", tags := ["s"] },
    { date := 0, amount := -5, desc := "APP", tags := ["s"] },
    { date := 1, amount := -5, desc := "APP", tags := ["s"] } ]

/-- The §8 reconciliation example: an auto-detected ACME subscription. -/
def acmeAuto : Subscription :=
  { merchant := "ACME", merchant_key := "ACME", amount := 999/100,
    frequency := "monthly", interval_days := 30, occurrence_count := 3,
    annual_cost := 12155/100, ytd_cost := 2997/100, last_charge := 100,
    first_charge := 40, days_since_last := 10, is_stale := false,
    is_manual := false }

/-- The §8 reconciliation example: the same merchant from the manual path
under a longer name, matching `acmeAuto` by the fallback fingerprint only. -/
def acmeManual : Subscription :=
  { merchant := "ACME CORP", merchant_key := "ACME CORP", amount := 999/100,
    frequency := "monthly", interval_days := 31, occurrence_count := 2,
    annual_cost := 11764/100, ytd_cost := 1998/100, last_charge := 95,
    first_charge := 64, days_since_last := 15, is_stale := false,
    is_manual := true }

/-- A concrete engine state for witnesses. -/
def stW : EngineState :=
  { subscriptions := [acmeAuto], hiddenMerchantKeys := ["OLD KEY"],
    subscriptionTag := "subscriptions" }

/-- The detection run over the Netflix/Spotify transactions with the manual
path disabled: it yields exactly one (monthly) subscription. -/
def netflixRun : List Subscription := runDetection simW 70 0 txnsNetflix ""

/-! Helper lemmas about the list combinators of the embedding. -/

lemma mem_insertOrd {le : α → α → Bool} {t x : α} :
    ∀ {l : List α}, x ∈ insertOrd le t l ↔ x = t ∨ x ∈ l := by
  intro l
  induction l with
  | nil => simp [insertOrd]
  | cons u rest ih =>
    unfold insertOrd
    by_cases h : le u t
    · rw [if_pos h]
      simp only [List.mem_cons, ih]
      tauto
    · rw [if_neg h]
      simp only [List.mem_cons]

lemma mem_sortOrd {le : α → α → Bool} {x : α} :
    ∀ {l : List α}, x ∈ sortOrd le l ↔ x ∈ l := by
  intro l
  induction l with
  | nil => simp [sortOrd]
  | cons u rest ih =>
    unfold sortOrd
    rw [mem_insertOrd]
    simp only [List.mem_cons, ih]

lemma length_insertOrd {le : α → α → Bool} {t : α} :
    ∀ {l : List α}, (insertOrd le t l).length = l.length + 1 := by
  intro l
  induction l with
  | nil => rfl
  | cons u rest ih =>
    unfold insertOrd
    by_cases h : le u t
    · simp [h, ih]
    · simp [h]

lemma length_sortOrd {le : α → α → Bool} :
    ∀ {l : List α}, (sortOrd le l).length = l.length := by
  intro l
  induction l with
  | nil => rfl
  | cons u rest ih =>
    unfold sortOrd
    rw [length_insertOrd, ih]
    rfl

lemma mem_sortByDate {t : Txn} {l : List Txn} : t ∈ sortByDate l ↔ t ∈ l :=
  mem_sortOrd

lemma length_sortByDate {l : List Txn} : (sortByDate l).length = l.length :=
  length_sortOrd

lemma mem_sortRowsDescBy {key : StatRow → ℚ} {r : StatRow} {l : List StatRow} :
    r ∈ sortRowsDescBy key l ↔ r ∈ l :=
  mem_sortOrd

lemma mem_firstDedup_aux [DecidableEq α] {x : α} :
    ∀ (l acc : List α),
      (x ∈ l.foldl (fun acc a => if a ∈ acc then acc else acc ++ [a]) acc ↔
        x ∈ acc ∨ x ∈ l) := by
  intro l
  induction l with
  | nil => intro acc; simp
  | cons a rest ih =>
    intro acc
    simp only [List.foldl_cons, ih]
    by_cases h : a ∈ acc
    · rw [if_pos h]
      simp only [List.mem_cons]
      constructor
      · tauto
      · rintro (hx | hx | hx)
        · exact Or.inl hx
        · exact Or.inl (hx ▸ h)
        · exact Or.inr hx
    · rw [if_neg h]
      simp only [List.mem_append, List.mem_singleton, List.mem_cons]
      tauto

lemma mem_firstDedup [DecidableEq α] {x : α} {l : List α} :
    x ∈ firstDedup l ↔ x ∈ l := by
  unfold firstDedup
  rw [mem_firstDedup_aux]
  simp

lemma earliestTxn_eq_none {l : List Txn} : earliestTxn l = none ↔ l = [] := by
  cases l with
  | nil => simp [earliestTxn]
  | cons t rest =>
    simp only [earliestTxn]
    cases earliestTxn rest with
    | none => simp
    | some u =>
      dsimp only
      by_cases h : u.date < t.date
      · rw [if_pos h]; simp
      · rw [if_neg h]; simp

lemma earliestTxn_spec :
    ∀ {l : List Txn} {u : Txn}, earliestTxn l = some u →
      u ∈ l ∧ ∀ v ∈ l, u.date ≤ v.date := by
  intro l
  induction l with
  | nil => intro u h; simp [earliestTxn] at h
  | cons t rest ih =>
    intro u h
    unfold earliestTxn at h
    cases hre : earliestTxn rest with
    | none =>
      rw [hre] at h
      simp only [Option.some.injEq] at h
      subst h
      have hnil : rest = [] := earliestTxn_eq_none.mp hre
      subst hnil
      exact ⟨by simp, by simp⟩
    | some w =>
      rw [hre] at h
      dsimp only at h
      obtain ⟨hwmem, hwmin⟩ := ih hre
      by_cases hd : w.date < t.date
      · rw [if_pos hd] at h
        simp only [Option.some.injEq] at h
        subst h
        refine ⟨List.mem_cons_of_mem _ hwmem, ?_⟩
        intro v hv
        rcases List.mem_cons.mp hv with hv | hv
        · exact hv ▸ le_of_lt hd
        · exact hwmin v hv
      · rw [if_neg hd] at h
        simp only [Option.some.injEq] at h
        subst h
        refine ⟨List.mem_cons_self _ _, ?_⟩
        intro v hv
        rcases List.mem_cons.mp hv with hv | hv
        · exact hv ▸ le_refl _
        · exact le_trans (not_lt.mp hd) (hwmin v hv)

lemma any_decide_or (l : List α) (p q : α → Prop) [DecidablePred p]
    [DecidablePred q] :
    (l.any (fun m => decide (p m)) || l.any (fun m => decide (q m)))
      = decide (∃ m ∈ l, p m ∨ q m) := by
  rw [Bool.eq_iff_iff]
  simp only [Bool.or_eq_true, List.any_eq_true, decide_eq_true_eq]
  constructor
  · rintro (⟨m, hm, hp⟩ | ⟨m, hm, hq⟩)
    · exact ⟨m, hm, Or.inl hp⟩
    · exact ⟨m, hm, Or.inr hq⟩
  · rintro ⟨m, hm, hp | hq⟩
    · exact Or.inl ⟨m, hm, hp⟩
    · exact Or.inr ⟨m, hm, hq⟩

lemma not_any_decide_or (l : List α) (p q : α → Prop) [DecidablePred p]
    [DecidablePred q] :
    (!(l.any fun d => decide (p d)) && !(l.any fun d => decide (q d)))
      = decide (¬ ∃ d ∈ l, p d ∨ q d) := by
  rw [← Bool.not_or, any_decide_or l p q, decide_not]

/-! Inversion lemmas for the pipeline stages. -/

lemma mem_autoDetect {sim : String → String → ℚ} {today yearStart : ℤ}
    {txns : List Txn} {s : Subscription}
    (h : s ∈ autoDetect sim today yearStart txns) :
    ∃ key r, autoStatRow sim today yearStart (baseTransactions txns) key
        = some r ∧ s = mapAutoRow r := by
  simp only [autoDetect, List.mem_map] at h
  obtain ⟨r, hr, hs⟩ := h
  rw [mem_sortRowsDescBy, List.mem_filterMap] at hr
  obtain ⟨key, _, hrow⟩ := hr
  exact ⟨key, r, hrow, hs.symm⟩

lemma mem_manualPath {today yearStart : ℤ} {txns : List Txn} {tag : String}
    {s : Subscription} (h : s ∈ manualPath today yearStart txns tag) :
    tag.trim ≠ "" ∧
      ∃ key r,
        key ∈ firstDedup ((taggedTransactions tag.trim txns).map upperDesc) ∧
        manualGroupRow today yearStart (taggedTransactions tag.trim txns) key
          = some r ∧
        s = mapManualRow r := by
  unfold manualPath at h
  by_cases he : tag.trim = ""
  · rw [if_pos he] at h
    simp at h
  · rw [if_neg he] at h
    refine ⟨he, ?_⟩
    simp only [List.mem_map] at h
    obtain ⟨r, hr, hs⟩ := h
    rw [mem_sortRowsDescBy, List.mem_filterMap] at hr
    obtain ⟨key, hk, hrow⟩ := hr
    exact ⟨key, r, hk, hrow, hs.symm⟩

lemma mem_reconcile_cases {auto manual : List Subscription} {s : Subscription}
    (h : s ∈ reconcile auto manual) :
    (∃ a ∈ auto, ∃ b : Bool, s = { a with is_manual := b }) ∨ s ∈ manual := by
  simp only [reconcile, List.mem_append] at h
  rcases h with h | h
  · left
    simp only [List.mem_map] at h
    obtain ⟨a, ha, hs⟩ := h
    exact ⟨a, ha, _, hs.symm⟩
  · right
    exact List.mem_of_mem_filter h

lemma mem_runDetection_cases {sim : String → String → ℚ}
    {today yearStart : ℤ} {txns : List Txn} {tag : String} {s : Subscription}
    (h : s ∈ runDetection sim today yearStart txns tag) :
    (∃ a ∈ autoDetect sim today yearStart txns,
        ∃ b : Bool, s = { a with is_manual := b }) ∨
      s ∈ manualPath today yearStart txns tag :=
  mem_reconcile_cases h

lemma autoStatRow_some_avg_bounds {sim : String → String → ℚ}
    {today yearStart : ℤ} {bts : List Txn} {key : String × ℚ} {r : StatRow}
    (h : autoStatRow sim today yearStart bts key = some r) :
    (5 : ℚ) ≤ r.avg_interval ∧ r.avg_interval ≤ 400 := by
  simp only [autoStatRow] at h
  split at h
  · next m0 m1 rest _ =>
    split at h
    · next hpass =>
      simp only [Option.some.injEq] at h
      simp only [passesPeriodicityFilter, Bool.and_eq_true,
        decide_eq_true_eq] at hpass
      rw [← h]
      exact ⟨hpass.1.1.2, hpass.1.2⟩
    · exact absurd h (by simp)
  · exact absurd h (by simp)

lemma manualGroupRow_isSome_iff {today yearStart : ℤ} {tagged : List Txn}
    {key : String} :
    (∃ r, manualGroupRow today yearStart tagged key = some r) ↔
      2 ≤ (tagged.filter fun t => decide (upperDesc t = key)).length := by
  simp only [manualGroupRow]
  have hlen : (sortByDate (tagged.filter fun t => decide (upperDesc t = key))).length
      = (tagged.filter fun t => decide (upperDesc t = key)).length :=
    length_sortByDate
  rcases hm : sortByDate (tagged.filter fun t => decide (upperDesc t = key)) with
    _ | ⟨m0, _ | ⟨m1, rest⟩⟩
  · rw [hm] at hlen
    simp at hlen
    rw [← hlen]
    simp
  · rw [hm] at hlen
    simp at hlen
    rw [← hlen]
    simp
  · rw [hm] at hlen
    simp only [List.length_cons] at hlen
    rw [← hlen]
    simp

lemma manualGroupRow_key {today yearStart : ℤ} {tagged : List Txn}
    {key : String} {r : StatRow}
    (h : manualGroupRow today yearStart tagged key = some r) :
    r.merchant_key = key ∧ r.merchant.toUpper = key := by
  simp only [manualGroupRow] at h
  split at h
  · next m0 m1 rest hm =>
    simp only [Option.some.injEq] at h
    have hm1 : m1 ∈ sortByDate (tagged.filter fun t =>
        decide (upperDesc t = key)) := by
      rw [hm]
      simp
    rw [mem_sortByDate] at hm1
    have := (List.mem_filter.mp hm1).2
    have hup : upperDesc m1 = key := of_decide_eq_true this
    rw [← h]
    exact ⟨rfl, hup⟩
  · exact absurd h (by simp)

lemma mapManualRow_merchant_key {r : StatRow}
    (hup : r.merchant.toUpper = r.merchant_key) :
    (mapManualRow r).merchant_key = r.merchant_key := by
  simp only [mapManualRow]
  by_cases h : r.merchant_key = ""
  · rw [if_pos h, hup]
  · rw [if_neg h]

lemma jsRound_bounds {q : ℚ} (h5 : (5 : ℚ) ≤ q) (h400 : q ≤ 400) :
    (5 : ℤ) ≤ jsRound q ∧ jsRound q ≤ 400 := by
  unfold jsRound
  constructor
  · rw [Int.le_floor]
    push_cast
    linarith
  · have : ⌊q + 1/2⌋ < 401 := by
      rw [Int.floor_lt]
      push_cast
      linarith
    omega

lemma classifyFrequency_mem_labels (d : ℤ) :
    classifyFrequency d ∈
      (["weekly", "bi-weekly", "monthly", "quarterly", "semi-annual",
        "annual"] : List String) := by
  unfold classifyFrequency
  split
  · simp
  · split
    · simp
    · split
      · simp
      · split
        · simp
        · split
          · simp
          · simp

lemma classifyFrequency_ne_unknown (d : ℤ) :
    classifyFrequency d ≠ "unknown" := by
  unfold classifyFrequency
  split
  · simp
  · split
    · simp
    · split
      · simp
      · split
        · simp
        · split
          · simp
          · simp

lemma stale_iff_of_mem {sim : String → String → ℚ} {today yearStart : ℤ}
    {txns : List Txn} {tag : String} {s : Subscription}
    (hs : s ∈ runDetection sim today yearStart txns tag) :
    s.is_stale = true ↔ s.days_since_last > max (s.interval_days * 2) 90 := by
  rcases mem_runDetection_cases hs with ⟨a, ha, b, rfl⟩ | hm
  · obtain ⟨key, r, _, rfl⟩ := mem_autoDetect ha
    simp [mapAutoRow, staleThresholdOf, gt_iff_lt]
  · obtain ⟨_, key, r, _, _, rfl⟩ := mem_manualPath hm
    simp [mapManualRow, staleThresholdOf, gt_iff_lt]

lemma frequency_eq_of_mem {sim : String → String → ℚ} {today yearStart : ℤ}
    {txns : List Txn} {tag : String} {s : Subscription}
    (hs : s ∈ runDetection sim today yearStart txns tag) :
    s.frequency = classifyFrequency s.interval_days := by
  rcases mem_runDetection_cases hs with ⟨a, ha, b, rfl⟩ | hm
  · obtain ⟨key, r, _, rfl⟩ := mem_autoDetect ha
    rfl
  · obtain ⟨_, key, r, _, _, rfl⟩ := mem_manualPath hm
    rfl

/-! Claim theorems. -/

/-- C2: a merchant group passes the auto-detect periodicity filter iff its gap
count is at least 2 (equivalently `occurrence_count = gap_count + 1 >= 3`),
`5 <= avg_interval_days <= 400`, and the sample standard deviation of the gaps
is below `avg_interval_days * intervalConsistencyTolerance`, with the
tolerance constant equal to 0.5; a group of only two charges (one gap) never
passes. -/
theorem c2_periodicity_filter (gaps : List ℤ) :
    (passesPeriodicityFilter gaps = true ↔
      2 ≤ gaps.length ∧ (5 : ℚ) ≤ avgQ gaps ∧ avgQ gaps ≤ 400 ∧
        Real.sqrt ((sampleVarQ gaps : ℝ)) <
          (avgQ gaps : ℝ) * ((intervalConsistencyTolerance : ℚ) : ℝ)) ∧
    intervalConsistencyTolerance = 1/2 ∧
    (2 ≤ gaps.length ↔ 3 ≤ gaps.length + 1) ∧
    (∀ dA dB : ℤ, passesPeriodicityFilter (gapsOf [dA, dB]) = false) := by
  refine ⟨?_, rfl, by omega, ?_⟩
  · simp only [passesPeriodicityFilter, Bool.and_eq_true, decide_eq_true_eq]
    constructor
    · rintro ⟨⟨⟨h1, h2⟩, h3⟩, h4⟩
      refine ⟨h1, h2, h3, ?_⟩
      have ht : (0 : ℝ) <
          (avgQ gaps : ℝ) * ((intervalConsistencyTolerance : ℚ) : ℝ) := by
        have h0 : (0 : ℚ) < avgQ gaps * intervalConsistencyTolerance := by
          unfold intervalConsistencyTolerance
          nlinarith
        exact_mod_cast h0
      rw [Real.sqrt_lt' ht]
      have h4r : ((sampleVarQ gaps : ℝ)) <
          (((avgQ gaps * intervalConsistencyTolerance) ^ 2 : ℚ) : ℝ) := by
        exact_mod_cast h4
      push_cast at h4r
      nlinarith [h4r]
    · rintro ⟨h1, h2, h3, h4⟩
      refine ⟨⟨⟨h1, h2⟩, h3⟩, ?_⟩
      have ht : (0 : ℝ) <
          (avgQ gaps : ℝ) * ((intervalConsistencyTolerance : ℚ) : ℝ) := by
        have h0 : (0 : ℚ) < avgQ gaps * intervalConsistencyTolerance := by
          unfold intervalConsistencyTolerance
          nlinarith
        exact_mod_cast h0
      rw [Real.sqrt_lt' ht] at h4
      have h4q : ((sampleVarQ gaps : ℝ)) <
          (((avgQ gaps * intervalConsistencyTolerance) ^ 2 : ℚ) : ℝ) := by
        push_cast
        nlinarith [h4]
      exact_mod_cast h4q
  · intro dA dB
    simp [gapsOf, passesPeriodicityFilter]

/-- C2 witness: the filter theorem evaluated at the two 30-day gaps of the §8
monthly example, whose filter outcome is decided concretely. -/
theorem c2_periodicity_filter_witness :
    passesPeriodicityFilter [30, 30] = true ∧
      (2 ≤ ([30, 30] : List ℤ).length ∧ (5 : ℚ) ≤ avgQ [30, 30] ∧
        avgQ [30, 30] ≤ 400 ∧
        Real.sqrt ((sampleVarQ [30, 30] : ℝ)) <
          (avgQ [30, 30] : ℝ) * ((intervalConsistencyTolerance : ℚ) : ℝ)) :=
  ⟨by with_unfolding_all decide,
    (c2_periodicity_filter [30, 30]).1.mp (by with_unfolding_all decide)⟩

/-- C5: every subscription of a detection run is stale exactly when
`days_since_last` exceeds `max(interval_days * 2, 90)`; for an interval of 30
days the threshold is 90, so 61 days since the last charge is not stale and 91
is. -/
theorem c5_staleness :
    (∀ (sim : String → String → ℚ) (today yearStart : ℤ) (txns : List Txn)
        (tag : String), ∀ s ∈ runDetection sim today yearStart txns tag,
        (s.is_stale = true ↔
          s.days_since_last > max (s.interval_days * 2) 90)) ∧
      staleThresholdOf 30 = 90 ∧
      ¬ ((61 : ℤ) > staleThresholdOf 30) ∧ ((91 : ℤ) > staleThresholdOf 30) := by
  refine ⟨?_, by decide, by decide, by decide⟩
  intro sim today yearStart txns tag s hs
  exact stale_iff_of_mem hs

/-- C5 witness: the staleness equivalence evaluated at the single subscription
of the concrete Netflix run. -/
theorem c5_staleness_witness :
    (netflixRun.get ⟨0, by with_unfolding_all decide⟩).is_stale = true ↔
      (netflixRun.get ⟨0, by with_unfolding_all decide⟩).days_since_last >
        max ((netflixRun.get ⟨0, by with_unfolding_all decide⟩).interval_days * 2) 90 :=
  c5_staleness.1 simW 70 0 txnsNetflix "" _ (List.get_mem _ _ _)

/-- C6: every subscription's frequency label is `classifyFrequency` of its
rounded interval, whose buckets are `<= 8` weekly, `<= 16` bi-weekly, `<= 35`
monthly, `<= 100` quarterly, `<= 200` semi-annual, `> 200` annual; in
particular 8 is weekly, 9 bi-weekly, 35 monthly, 36 quarterly, 200
semi-annual and 201 annual. -/
theorem c6_frequency_buckets :
    (∀ (sim : String → String → ℚ) (today yearStart : ℤ) (txns : List Txn)
        (tag : String), ∀ s ∈ runDetection sim today yearStart txns tag,
        s.frequency = classifyFrequency s.interval_days) ∧
    (∀ d : ℤ,
      (d ≤ 8 → classifyFrequency d = "weekly") ∧
      (8 < d → d ≤ 16 → classifyFrequency d = "bi-weekly") ∧
      (16 < d → d ≤ 35 → classifyFrequency d = "monthly") ∧
      (35 < d → d ≤ 100 → classifyFrequency d = "quarterly") ∧
      (100 < d → d ≤ 200 → classifyFrequency d = "semi-annual") ∧
      (200 < d → classifyFrequency d = "annual")) ∧
    classifyFrequency 8 = "weekly" ∧ classifyFrequency 9 = "bi-weekly" ∧
    classifyFrequency 35 = "monthly" ∧ classifyFrequency 36 = "quarterly" ∧
    classifyFrequency 200 = "semi-annual" ∧
    classifyFrequency 201 = "annual" := by
  refine ⟨?_, ?_, rfl, rfl, rfl, rfl, rfl, rfl⟩
  · intro sim today yearStart txns tag s hs
    exact frequency_eq_of_mem hs
  · intro d
    refine ⟨?_, ?_, ?_, ?_, ?_, ?_⟩
    · intro h
      simp [classifyFrequency, h]
    · intro h1 h2
      unfold classifyFrequency
      rw [if_neg (by omega), if_pos h2]
    · intro h1 h2
      unfold classifyFrequency
      rw [if_neg (by omega), if_neg (by omega), if_pos h2]
    · intro h1 h2
      unfold classifyFrequency
      rw [if_neg (by omega), if_neg (by omega), if_neg (by omega), if_pos h2]
    · intro h1 h2
      unfold classifyFrequency
      rw [if_neg (by omega), if_neg (by omega), if_neg (by omega),
        if_neg (by omega), if_pos h2]
    · intro h1
      unfold classifyFrequency
      rw [if_neg (by omega), if_neg (by omega), if_neg (by omega),
        if_neg (by omega), if_neg (by omega)]

/-- C6 witness: the frequency equation evaluated at the single subscription of
the concrete Netflix run (interval 30, label monthly). -/
theorem c6_frequency_buckets_witness :
    (netflixRun.get ⟨0, by with_unfolding_all decide⟩).frequency =
      classifyFrequency (netflixRun.get ⟨0, by with_unfolding_all decide⟩).interval_days :=
  c6_frequency_buckets.1 simW 70 0 txnsNetflix "" _ (List.get_mem _ _ _)

/-- C10: every subscription of a detection run carries one of the six
frequency labels; the initialization value "unknown" never appears. -/
theorem c10_frequency_labels :
    ∀ (sim : String → String → ℚ) (today yearStart : ℤ) (txns : List Txn)
      (tag : String), ∀ s ∈ runDetection sim today yearStart txns tag,
      s.frequency ∈
          (["weekly", "bi-weekly", "monthly", "quarterly", "semi-annual",
            "annual"] : List String) ∧
        s.frequency ≠ "unknown" := by
  intro sim today yearStart txns tag s hs
  rcases mem_runDetection_cases hs with ⟨a, ha, b, rfl⟩ | hm
  · obtain ⟨key, r, _, rfl⟩ := mem_autoDetect ha
    exact ⟨classifyFrequency_mem_labels _, classifyFrequency_ne_unknown _⟩
  · obtain ⟨_, key, r, _, _, rfl⟩ := mem_manualPath hm
    exact ⟨classifyFrequency_mem_labels _, classifyFrequency_ne_unknown _⟩

/-- C10 witness: the label membership evaluated at the single subscription of
the concrete Netflix run. -/
theorem c10_frequency_labels_witness :
    (netflixRun.get ⟨0, by with_unfolding_all decide⟩).frequency ∈
        (["weekly", "bi-weekly", "monthly", "quarterly", "semi-annual",
          "annual"] : List String) ∧
      (netflixRun.get ⟨0, by with_unfolding_all decide⟩).frequency ≠ "unknown" :=
  c10_frequency_labels simW 70 0 txnsNetflix "" _ (List.get_mem _ _ _)

/-- C1: for any detected and manual lists of one run (every manual entry
carrying `is_manual = true`), the merge equals the detected list with each
entry's `is_manual` set exactly when some manual entry matches it by
`merchant_key` or by fingerprint — all other fields untouched — followed by
the manual entries matching no detected entry by either rule, appended
unmodified (hence with `is_manual = true`); a manual entry matching some
detected entry by either rule is never appended, so such a merchant appears
once, carrying the detected-path statistics. -/
theorem c1_reconciler (auto manual : List Subscription)
    (hman : ∀ m ∈ manual, m.is_manual = true) :
    (reconcile auto manual =
        auto.map (fun s =>
          { s with is_manual := decide (∃ m ∈ manual,
              m.merchant_key = s.merchant_key ∨
                fingerprintOf m = fingerprintOf s) }) ++
          manual.filter (fun m => decide (¬ ∃ d ∈ auto,
            d.merchant_key = m.merchant_key ∨
              fingerprintOf d = fingerprintOf m))) ∧
    (∀ m ∈ manual,
      (¬ ∃ d ∈ auto, d.merchant_key = m.merchant_key ∨
          fingerprintOf d = fingerprintOf m) →
        m ∈ reconcile auto manual ∧ m.is_manual = true) ∧
    (∀ m ∈ manual,
      (∃ d ∈ auto, d.merchant_key = m.merchant_key ∨
          fingerprintOf d = fingerprintOf m) →
        m ∉ manual.filter (fun x => decide (¬ ∃ d ∈ auto,
          d.merchant_key = x.merchant_key ∨
            fingerprintOf d = fingerprintOf x))) := by
  have hmark : ∀ s : Subscription,
      (manual.any (fun m => decide (m.merchant_key = s.merchant_key)) ||
        manual.any (fun m => decide (fingerprintOf m = fingerprintOf s)))
      = decide (∃ m ∈ manual, m.merchant_key = s.merchant_key ∨
          fingerprintOf m = fingerprintOf s) :=
    fun s => any_decide_or manual _ _
  have hkeep : ∀ m : Subscription,
      (!(auto.any fun d => decide (d.merchant_key = m.merchant_key)) &&
        !(auto.any fun d => decide (fingerprintOf d = fingerprintOf m)))
      = decide (¬ ∃ d ∈ auto, d.merchant_key = m.merchant_key ∨
          fingerprintOf d = fingerprintOf m) :=
    fun m => not_any_decide_or auto _ _
  refine ⟨?_, ?_, ?_⟩
  · unfold reconcile
    simp only [hmark, hkeep]
  · intro m hm hnot
    refine ⟨?_, hman m hm⟩
    unfold reconcile
    apply List.mem_append.mpr
    right
    apply List.mem_filter.mpr
    refine ⟨hm, ?_⟩
    rw [hkeep m]
    exact decide_eq_true hnot
  · intro m hm hex hmemf
    exact of_decide_eq_true (List.mem_filter.mp hmemf).2 hex

/-- C1 witness: the §8 ACME scenario — the manual entry matches the detected
one by the fallback fingerprint `9.99|ACME` only, so it is not appended. -/
theorem c1_reconciler_witness :
    acmeManual ∉ ([acmeManual].filter (fun x => decide (¬ ∃ d ∈ [acmeAuto],
      d.merchant_key = x.merchant_key ∨ fingerprintOf d = fingerprintOf x))) :=
  (c1_reconciler [acmeAuto] [acmeManual]
      (by
        intro m hm
        rw [List.mem_singleton] at hm
        subst hm
        rfl)).2.2
    acmeManual (List.mem_singleton.mpr rfl)
    ⟨acmeAuto, List.mem_singleton.mpr rfl,
      Or.inr (by with_unfolding_all decide)⟩

/-- C3: for every base transaction, the canonical description of its rounded
amount is the uppercased description of the chronologically earliest base
transaction at that amount, the transaction joins the canonical group iff the
similarity of its own uppercased description with the canonical one exceeds
0.7 and otherwise forms a group under its own description; and the group
assignment depends only on the canonical description (later transactions are
never compared against newly formed singleton groups). -/
theorem c3_clusterer (sim : String → String → ℚ) (txns : List Txn) (t : Txn)
    (ht : t ∈ baseTransactions txns) :
    (∃ e, e ∈ baseTransactions txns ∧ normAmount e = normAmount t ∧
      (∀ u ∈ baseTransactions txns, normAmount u = normAmount t →
        e.date ≤ u.date) ∧
      canonicalDescAt (baseTransactions txns) (normAmount t)
        = some (upperDesc e) ∧
      merchantGroupOf sim (baseTransactions txns) t =
        (if 7/10 < sim (upperDesc t) (upperDesc e) then upperDesc e
          else upperDesc t)) ∧
    (∀ bts1 bts2 : List Txn,
      canonicalDescAt bts1 (normAmount t) = canonicalDescAt bts2 (normAmount t) →
        merchantGroupOf sim bts1 t = merchantGroupOf sim bts2 t) := by
  constructor
  · have htf : t ∈ (baseTransactions txns).filter
        (fun u => decide (normAmount u = normAmount t)) :=
      List.mem_filter.mpr ⟨ht, decide_eq_true rfl⟩
    obtain ⟨e, he⟩ : ∃ e, earliestTxn ((baseTransactions txns).filter
        (fun u => decide (normAmount u = normAmount t))) = some e := by
      rcases hfl : earliestTxn ((baseTransactions txns).filter
          (fun u => decide (normAmount u = normAmount t))) with _ | e
      · rw [earliestTxn_eq_none] at hfl
        rw [hfl] at htf
        simp at htf
      · exact ⟨e, rfl⟩
    obtain ⟨hmem, hmin⟩ := earliestTxn_spec he
    have hbe := List.mem_filter.mp hmem
    refine ⟨e, hbe.1, of_decide_eq_true hbe.2, ?_, ?_, ?_⟩
    · intro u hu hnu
      exact hmin u (List.mem_filter.mpr ⟨hu, decide_eq_true hnu⟩)
    · unfold canonicalDescAt
      rw [he]
      rfl
    · unfold merchantGroupOf canonicalDescAt
      rw [he]
      rfl
  · intro bts1 bts2 hc
    unfold merchantGroupOf
    rw [hc]

/-- C3 witness: the clustering theorem evaluated at the second Netflix
transaction — the earliest -15.99 charge is the day-0 one, so the canonical
description is its own. -/
theorem c3_clusterer_witness :
    ∃ e, e ∈ baseTransactions txnsNetflix ∧
      normAmount e = normAmount (txnsNetflix.get ⟨1, by with_unfolding_all decide⟩) ∧
      (∀ u ∈ baseTransactions txnsNetflix,
        normAmount u = normAmount (txnsNetflix.get ⟨1, by with_unfolding_all decide⟩) →
          e.date ≤ u.date) ∧
      canonicalDescAt (baseTransactions txnsNetflix)
          (normAmount (txnsNetflix.get ⟨1, by with_unfolding_all decide⟩))
        = some (upperDesc e) ∧
      merchantGroupOf simW (baseTransactions txnsNetflix)
          (txnsNetflix.get ⟨1, by with_unfolding_all decide⟩) =
        (if 7/10 <
            simW (upperDesc (txnsNetflix.get ⟨1, by with_unfolding_all decide⟩))
              (upperDesc e)
          then upperDesc e
          else upperDesc (txnsNetflix.get ⟨1, by with_unfolding_all decide⟩)) :=
  (c3_clusterer simW txnsNetflix _ (by with_unfolding_all decide)).1

/-- C4 (amended): with a non-empty configured tag, the manual path includes a
merchant key exactly when at least two tagged debit transactions share that
uppercased description, with no occurrence/interval-range/stddev gate; every
result is `is_manual = true`; an empty tag produces nothing.  The 30-day
default applies only when the average gap is zero (the JavaScript `|| 30`
falsy rescue): a group with exactly one nonzero gap keeps that gap. -/
theorem c4_manual_path (today yearStart : ℤ) (txns : List Txn) (tag : String) :
    (tag.trim = "" → manualPath today yearStart txns tag = []) ∧
    (∀ s ∈ manualPath today yearStart txns tag, s.is_manual = true) ∧
    (tag.trim ≠ "" → ∀ k : String,
      ((∃ s ∈ manualPath today yearStart txns tag, s.merchant_key = k) ↔
        2 ≤ ((taggedTransactions tag.trim txns).filter
          (fun t => decide (upperDesc t = k))).length)) ∧
    (∀ r : StatRow, r.avg_interval ≠ 0 →
      (mapManualRow r).interval_days = jsRound r.avg_interval) ∧
    (∀ r : StatRow, r.avg_interval = 0 →
      (mapManualRow r).interval_days = 30) := by
  refine ⟨?_, ?_, ?_, ?_, ?_⟩
  · intro h
    simp [manualPath, h]
  · intro s hs
    obtain ⟨_, key, r, _, _, rfl⟩ := mem_manualPath hs
    rfl
  · intro htag k
    constructor
    · rintro ⟨s, hs, hk⟩
      obtain ⟨_, key, r, hkmem, hrow, rfl⟩ := mem_manualPath hs
      obtain ⟨hrk, hru⟩ := manualGroupRow_key hrow
      have hmk : (mapManualRow r).merchant_key = r.merchant_key :=
        mapManualRow_merchant_key (by rw [hru, hrk])
      rw [hmk, hrk] at hk
      subst hk
      exact manualGroupRow_isSome_iff.mp ⟨r, hrow⟩
    · intro hcount
      obtain ⟨r, hrow⟩ := manualGroupRow_isSome_iff.mpr hcount
      have hfilter_ne : ((taggedTransactions tag.trim txns).filter
          (fun t => decide (upperDesc t = k))) ≠ [] := by
        intro hnil
        rw [hnil] at hcount
        simp at hcount
      obtain ⟨t0, ht0⟩ := List.exists_mem_of_ne_nil _ hfilter_ne
      have ht0f := List.mem_filter.mp ht0
      have hk0 : upperDesc t0 = k := of_decide_eq_true ht0f.2
      have hkmem : k ∈ firstDedup
          ((taggedTransactions tag.trim txns).map upperDesc) := by
        rw [mem_firstDedup]
        exact hk0 ▸ List.mem_map_of_mem upperDesc ht0f.1
      refine ⟨mapManualRow r, ?_, ?_⟩
      · unfold manualPath
        rw [if_neg htag]
        apply List.mem_map_of_mem
        rw [mem_sortRowsDescBy]
        exact List.mem_filterMap.mpr ⟨k, hkmem, hrow⟩
      · obtain ⟨hrk, hru⟩ := manualGroupRow_key hrow
        rw [mapManualRow_merchant_key (by rw [hru, hrk]), hrk]
  · intro r h
    simp only [mapManualRow]
    rw [if_neg h]
  · intro r h
    simp only [mapManualRow]
    rw [if_pos h]
    with_unfolding_all decide

/-- C4 counterexample: two tagged charges seven days apart form a manual group
with exactly one gap, and the run keeps `avg_interval_days = 7` — it does not
default to 30 as the claim states. -/
theorem c4_counterexample :
    (manualPath 10 0 txnsGym "subscriptions").map
        (fun s => (s.occurrence_count, s.interval_days)) = [(2, 7)] := by
  with_unfolding_all decide

/-- C4 witness: the group-inclusion equivalence of the amended theorem at the
concrete two-charge gym group. -/
theorem c4_manual_path_witness :
    (∃ s ∈ manualPath 10 0 txnsGym "subscriptions", s.merchant_key = "GYM") ↔
      2 ≤ ((taggedTransactions ("subscriptions".trim) txnsGym).filter
        (fun t => decide (upperDesc t = "GYM"))).length :=
  (c4_manual_path 10 0 txnsGym "subscriptions").2.2.1
    (by with_unfolding_all decide) "GYM"

/-- C7 (amended): every auto-path subscription has `interval_days` between 5
and 400 — forced by the periodicity filter's range gate on the average
interval — so the annual-cost division never divides by zero on the auto
path.  The manual path has no such gate and can emit `interval_days = 0` (see
the counterexample), so the claim's guarantee does not extend to it. -/
theorem c7_auto_interval_never_zero (sim : String → String → ℚ)
    (today yearStart : ℤ) (txns : List Txn) :
    ∀ s ∈ autoDetect sim today yearStart txns,
      (5 : ℤ) ≤ s.interval_days ∧ s.interval_days ≤ 400 ∧
        s.interval_days ≠ 0 := by
  intro s hs
  obtain ⟨key, r, hrow, rfl⟩ := mem_autoDetect hs
  obtain ⟨h5, h400⟩ := autoStatRow_some_avg_bounds hrow
  obtain ⟨hb5, hb400⟩ := jsRound_bounds h5 h400
  have hint : (mapAutoRow r).interval_days = jsRound r.avg_interval := rfl
  rw [hint]
  exact ⟨hb5, hb400, by omega⟩

/-- C7 counterexample: four tagged same-description charges on days 0, 0, 0, 1
yield a mean gap of 1/3, which the manual path rounds to an interval of 0
days, so the run's output contains a subscription whose annual-cost formula
divides by zero — the claim's "either path" guarantee fails. -/
theorem c7_counterexample :
    ∃ s ∈ runDetection simZero 2 0 txnsApp "s", s.interval_days = 0 := by
  with_unfolding_all decide

/-- C7 witness: the interval bounds of the amended theorem at the single
auto-detected subscription of the concrete Netflix run. -/
theorem c7_auto_interval_never_zero_witness :
    (5 : ℤ) ≤ ((autoDetect simW 70 0 txnsNetflix).get
        ⟨0, by with_unfolding_all decide⟩).interval_days ∧
      ((autoDetect simW 70 0 txnsNetflix).get
        ⟨0, by with_unfolding_all decide⟩).interval_days ≤ 400 ∧
      ((autoDetect simW 70 0 txnsNetflix).get
        ⟨0, by with_unfolding_all decide⟩).interval_days ≠ 0 :=
  c7_auto_interval_never_zero simW 70 0 txnsNetflix _ (List.get_mem _ _ _)

/-- C8: a failing auto query, or a failing manual query while the manual path
is enabled, leaves the engine state — in particular the previously published
subscriptions list — exactly as it was; and in every case the published list
is all-or-nothing: either the previous list or the complete result of the new
run. -/
theorem c8_failure_keeps_previous_list (sim : String → String → ℚ)
    (today yearStart : ℤ) (txns : List Txn) (autoOk manualOk : Bool)
    (st : EngineState) :
    (autoOk = false →
      detectStep sim today yearStart txns autoOk manualOk st = st) ∧
    (st.subscriptionTag.trim ≠ "" → manualOk = false →
      detectStep sim today yearStart txns autoOk manualOk st = st) ∧
    ((detectStep sim today yearStart txns autoOk manualOk st).subscriptions
        = st.subscriptions ∨
      (detectStep sim today yearStart txns autoOk manualOk st).subscriptions
        = runDetection sim today yearStart txns st.subscriptionTag) := by
  refine ⟨?_, ?_, ?_⟩
  · intro h
    simp [detectStep, h]
  · intro ht hm
    unfold detectStep
    by_cases ha : autoOk = false
    · rw [if_pos ha]
    · rw [if_neg ha, if_pos ⟨ht, hm⟩]
  · unfold detectStep
    split
    · exact Or.inl rfl
    · split
      · exact Or.inl rfl
      · exact Or.inr rfl

/-- C8 witness: a failed auto query against the concrete state leaves it
untouched. -/
theorem c8_failure_keeps_previous_list_witness :
    detectStep simZero 0 0 [] false true stW = stW :=
  (c8_failure_keeps_previous_list simZero 0 0 [] false true stW).1 rfl

/-- C9: the list a detection step publishes is the same for any two hidden
sets (in particular after hiding a merchant and re-running, the full list is
unchanged); hidden entries are excluded only by the caller's
`visibleSubscriptions` computation, and unhiding a previously hidden merchant
restores the visible subset exactly. -/
theorem c9_hidden_noninterference (sim : String → String → ℚ)
    (today yearStart : ℤ) (txns : List Txn) (autoOk manualOk : Bool)
    (st : EngineState) (hidden2 : List String) (k : String)
    (subs : List Subscription) (hidden : List String) (s : Subscription) :
    ((detectStep sim today yearStart txns autoOk manualOk
        { st with hiddenMerchantKeys := hidden2 }).subscriptions
      = (detectStep sim today yearStart txns autoOk manualOk
          st).subscriptions) ∧
    ((detectStep sim today yearStart txns true true
        (hideState st k)).subscriptions
      = (detectStep sim today yearStart txns true true st).subscriptions) ∧
    (s ∈ visibleSubscriptions subs hidden false "" ↔
      s ∈ subs ∧ s.merchant_key ∉ hidden) ∧
    (k ∉ hidden →
      visibleSubscriptions subs (unhideKey (hideKey hidden k) k) false ""
        = visibleSubscriptions subs hidden false "") := by
  have hgen : ∀ (h2 : List String) (aOk mOk : Bool),
      (detectStep sim today yearStart txns aOk mOk
        { st with hiddenMerchantKeys := h2 }).subscriptions
      = (detectStep sim today yearStart txns aOk mOk st).subscriptions := by
    intro h2 aOk mOk
    unfold detectStep
    by_cases ha : aOk = false
    · rw [if_pos ha, if_pos ha]
    · rw [if_neg ha, if_neg ha]
      by_cases hm : st.subscriptionTag.trim ≠ "" ∧ mOk = false
      · rw [if_pos hm, if_pos hm]
      · rw [if_neg hm, if_neg hm]
  refine ⟨hgen hidden2 autoOk manualOk, hgen _ true true, ?_, ?_⟩
  · unfold visibleSubscriptions
    rw [List.mem_filter]
    simp
  · intro hk
    have h1 : unhideKey (hideKey hidden k) k = hidden := by
      unfold hideKey unhideKey
      rw [List.filter_cons]
      simp only [decide_not, ne_eq, decide_eq_true_eq]
      rw [if_neg (by simp)]
      rw [List.filter_eq_self]
      intro a ha
      simp only [decide_not, Bool.not_eq_eq_eq_not, Bool.not_true,
        decide_eq_false_iff_not]
      intro hak
      exact hk (hak ▸ ha)
    rw [h1]

/-- C9 witness: the visible-subset characterization at a concrete list and
hidden set, and the unhide-after-hide round trip at a fresh key. -/
theorem c9_hidden_noninterference_witness :
    (acmeAuto ∈ visibleSubscriptions [acmeAuto] ["OTHER"] false "" ↔
      acmeAuto ∈ [acmeAuto] ∧ acmeAuto.merchant_key ∉ ["OTHER"]) ∧
    visibleSubscriptions [acmeAuto] (unhideKey (hideKey ["OTHER"] "ACME") "ACME")
        false ""
      = visibleSubscriptions [acmeAuto] ["OTHER"] false "" :=
  ⟨(c9_hidden_noninterference simZero 0 0 [] true true stW [] "ACME" [acmeAuto]
      ["OTHER"] acmeAuto).2.2.1,
    (c9_hidden_noninterference simZero 0 0 [] true true stW [] "ACME" [acmeAuto]
      ["OTHER"] acmeAuto).2.2.2 (by with_unfolding_all decide)⟩

end Treeline
